import Mathlib

/-!
Shallow embedding of the Reflex CLI entry point (`reflex.py`), covering the
pieces the specification's claims are about:

* the `deploy` command (lines 417-681): prepare-deploy negotiation,
  parameter validation, environment-variable processing, artifact upload,
  backend/frontend polling, and cleanup;
* the `login` command's token fetch/validation loops (lines 266-334);
* the `run` command's port resolution (lines 156-161).

All external effects (remote API calls, console prompts, sleeps) are
modelled by an explicit oracle environment, and each command is embedded as
a pure function from its arguments and that oracle to a trace of observable
events plus a final outcome.  Console prompts (`console.ask`) are modelled
as oracle inputs and are not recorded as events; network calls, error /
warning / info messages, sleeps and token-store operations are recorded.
The two operator-driven loops of `deploy` (the suggested-key retry loop and
the interactive env-entry loop) are unbounded in the source; they are
embedded with an explicit fuel argument, and running out of fuel yields the
dedicated `Outcome.diverged` marker.
-/

namespace Reflex

/-- Observable events of a command execution.  Constructors tagged `Call`
record remote (hosting) API invocations; the remaining constructors record
console output, sleeps and local token-store operations.  In
`uploadCall`, the `apiUrl` argument records the value of `config.api_url`
in effect at the moment of the upload call (assigned from the negotiated
`api_url` at line 600 of the source, just before the upload). -/
inductive Event where
  | prepareCall (appName : String) (key : Option String) (frontendHostname : Option String)
  | uploadCall (key : String) (appName : String) (regions : List String)
      (appPfx : String) (apiUrl : String) (envs : Option (List (String × String)))
  | cleanupCall
  | pollBackend (url : String)
  | pollFrontend (url : String)
  | fetchTokenCall
  | validateCall
  | deleteToken
  | saveToken
  | sleep (secs : Nat)
  | errorMsg (msg : String)
  | warnMsg (msg : String)
  | printMsg (msg : String)
  | printOverwrite (key : String)
  | printSiteUp (key : String) (regions : List String) (url : String)
  deriving DecidableEq, Repr

/-- Final outcome of a command: normal return (process exit code 0),
`typer.Exit(code)`, an exception propagating uncaught out of the command,
or fuel exhaustion of one of the unbounded interactive loops. -/
inductive Outcome where
  | completed
  | exited (code : Nat)
  | uncaught
  | diverged
  deriving DecidableEq, Repr

/-- One `reply` / `existing` entry / `suggestion` of a prepare-deploy
response (fields as in the source's response object). -/
structure Reply where
  key : String
  api_url : String
  deploy_url : String
  deriving DecidableEq, Repr

/-- A prepare-deploy response: the app prefix plus the three optional
variants inspected by `deploy` (`reply`, `existing`, `suggestion`).
`appPfx` embeds the source's `app_prefix` field. -/
structure PrepareResp where
  appPfx : String
  reply : Option Reply
  existing : List Reply
  suggestion : Option Reply
  deriving DecidableEq, Repr

/-- The upload response consumed by the poll loops (fields as in source). -/
structure DeployResponse where
  backend_url : String
  frontend_url : String
  deriving DecidableEq, Repr

/-- CLI arguments of `deploy` that the embedded logic inspects. -/
structure DeployArgs where
  key : Option String
  appName : String
  regions : List String
  envs : List String
  frontendHostname : Option String
  interactive : Bool
  deriving DecidableEq, Repr

/-- Oracle environment for a `deploy` execution: results of every external
interaction, indexed where the source can repeat them.  `prepare n` is the
result of the (n+1)-st `hosting.prepare_deploy` call (`.error ()` models a
raised exception); `askKey n` is the operator's answer (with the prompt's
default already applied) to the (n+1)-st deployment-name prompt;
`envKeyAnswers` / `envValAnswers` are the answers of the interactive
env-entry loop; `exportOk = false` models `export` raising `ImportError`;
`cleanupOk = false` models `hosting.clean_up()` raising; `backendUp i`
is the result of the (i+1)-st backend status poll.  `requirementsOk` and
`initializedOk` model the two local precondition checks
(`check_requirements_txt_exist`, `check_initialized`); the body of
`check_initialized` is outside this file's source, so its failure mode is
modelled from the spec: a local precondition failure is reported and the
process exits with code 1. -/
structure DeployEnv where
  featureEnabled : Bool
  requirementsOk : Bool
  initializedOk : Bool
  prepare : Nat → Except Unit PrepareResp
  askKey : Nat → String
  askRegion : String
  envKeyAnswers : Nat → String
  envValAnswers : Nat → String
  exportOk : Bool
  uploadResult : Except Unit DeployResponse
  cleanupOk : Bool
  backendUp : Nat → Bool
  frontendUp : Nat → Bool
  backendBudget : Nat
  frontendBudget : Nat

/-- Result of the negotiation phase of `deploy` (everything up to and
including the interactive env-entry loop): the values the source holds in
`key`, `regions`, `app_prefix`, `api_url`, `deploy_url`,
`overwrite_existing` and `envs` when control reaches the required-parameter
check at line 579. -/
structure NegotiationResult where
  key : String
  regions : List String
  appPfx : String
  apiUrl : String
  deployUrl : String
  overwrite : Bool
  envs : List String
  deriving DecidableEq, Repr

/-- Python truthiness of the optional `-k` CLI value: `None` and `""` are
falsy. -/
def keyFalsy : Option String → Bool
  | none => true
  | some s => s = ""

/- Fixed message strings of the embedded commands (interpolated parts of
the source's f-strings are dropped where they only carry exception text). -/

def keyRequiredMsg : String := "Please provide a deployment key when not in interactive mode."

def requirementsMsg : String := "requirements.txt required for deployment"

def notInitMsg : String := "app not initialized"

def prepareFailedMsg : String := "Unable to prepare deployment"

def nameUnavailableMsg : String := "Unable to deploy at this name"

def retryMsg : String := "Cannot deploy at this name, try picking a different name"

def noSuitableKeyMsg : String := "Unable to find a suitable deployment key."

def envVarsMsg : String := "Environment variables ..."

def finishedEnvsMsg : String := "Finished adding envs."

def noEnvsMsg : String := "No envs added. Continuing ..."

def missingParamsMsg : String := "Please provide all the required parameters."

def invalidEnvFormatMsg : String := "Invalid env format: should be <key>=<value>."

def invalidEnvNameMsg : String := "Invalid env name: should start with a letter or underscore, followed by letters, digits, or underscores."

def importFailedMsg : String := "Encountered ImportError, did you install all the dependencies?"

def uploadingMsg : String := "Uploading code ..."

def uploadFailedMsg : String := "Unable to deploy"

def startShortlyMsg : String := "Deployment will start shortly."

def oldComeDownMsg : String := "Waiting for the old deployment to come down"

def newComeUpMsg : String := "Waiting for the new deployment to come up"

def backendUpMsg : String := "Backend is up"

def backendUnreachableMsg : String := "Backend unreachable"

def frontendUpMsg : String := "frontend is up"

def frontendUnreachableMsg : String := "frontend is unreachable"

def slowWarnMsg : String := "Your deployment is taking unusually long. Check back later on its status: reflex deployments status"

def accessDeniedMsg : String := "Access denied"

def fetchFailMsg : String := "Unable to fetch access token. Please try again or contact support."

def validateFailMsg : String := "Unable to validate token. Please try again or contact support."

def alreadyLoggedInMsg : String := "You already logged in."

def loggedInMsg : String := "Successfully logged in."

def openingMsg : String := "Opening control plane login page ..."

def browserMsg : String := "Unable to open the browser to authenticate. Please contact support."

/-! ### Environment-variable processing (source lines 583-597) -/

/-- Python's `s.split("=", maxsplit=1)`: split at the first `'='` only,
returning `[s]` when no `'='` occurs. -/
def splitFirstEq (s : String) : List String :=
  let l := s.data
  if l.contains '=' then
    [⟨l.takeWhile (fun c => c ≠ '=')⟩, ⟨(l.dropWhile (fun c => c ≠ '=')).tail⟩]
  else [s]

/-- The name part of an env entry: everything before the first `'='`. -/
def envName (s : String) : String := ⟨s.data.takeWhile (fun c => c ≠ '=')⟩

/-- The value part of an env entry: everything after the first `'='`. -/
def envValue (s : String) : String := ⟨(s.data.dropWhile (fun c => c ≠ '=')).tail⟩

/-- Characters matched by `[a-zA-Z_]`. -/
def isEnvNameStartChar (c : Char) : Bool :=
  ('a' ≤ c && c ≤ 'z') || ('A' ≤ c && c ≤ 'Z') || c = '_'

/-- Characters matched by `[a-zA-Z0-9_]`. -/
def isEnvNameChar (c : Char) : Bool :=
  isEnvNameStartChar c || ('0' ≤ c && c ≤ '9')

/-- Strict membership of `s` in the language of the regular expression
written in the source, `[a-zA-Z_][a-zA-Z0-9_]*` anchored on both sides. -/
def strictEnvNameMatch (s : String) : Bool :=
  match s.data with
  | [] => false
  | c :: cs => isEnvNameStartChar c && cs.all isEnvNameChar

/-- The source's actual check, `re.match(r"^[a-zA-Z_][a-zA-Z0-9_]*$", s)`:
in Python, `$` matches at the end of the string *or just before a single
trailing newline*, so a name followed by one trailing `'\n'` is also
accepted. -/
def pyEnvNameMatch (s : String) : Bool :=
  strictEnvNameMatch s ||
    (s.data.getLast? = some '\n' && strictEnvNameMatch ⟨s.data.dropLast⟩)

/-- Python-dict assignment `d[k] = v` on an insertion-ordered association
list: overwrite in place when the key exists, append otherwise. -/
def dictInsert (d : List (String × String)) (k v : String) : List (String × String) :=
  if d.any (fun p => p.1 = k) then
    d.map (fun p => if p.1 = k then (k, v) else p)
  else d ++ [(k, v)]

/-- Lookup in the processed-envs dict. -/
def dictFind (d : List (String × String)) (k : String) : Option String :=
  (d.find? (fun p => p.1 = k)).map (fun p => p.2)

/-- The env-validation loop of `deploy` (lines 586-597): split each entry
at the first `'='`, reject with the format message when no `'='` is
present, reject with the name message when the name fails the source's
regex check, and otherwise assign into the processed dict. -/
def processEnvs : List String → List (String × String) → Except String (List (String × String))
  | [], acc => .ok acc
  | e :: rest, acc =>
    match splitFirstEq e with
    | [k, v] =>
      if pyEnvNameMatch k then processEnvs rest (dictInsert acc k v)
      else .error invalidEnvNameMsg
    | _ => .error invalidEnvFormatMsg

/-- Lines 583-597 as a whole: `processed_envs` stays `None` when the env
list is empty, otherwise the validation loop runs. -/
def processedEnvs (envs : List String) : Except String (Option (List (String × String))) :=
  if envs.isEmpty then .ok none
  else (processEnvs envs []).map some

/-- A single env entry passes the source's validation: it has an `'='` and
its name passes the Python regex check. -/
def envEntryOk (s : String) : Bool :=
  match splitFirstEq s with
  | [k, _] => pyEnvNameMatch k
  | _ => false

/-! ### The interactive negotiation loops -/

/-- The suggested-key retry loop (lines 523-542).  `callIdx` indexes the
prepare-deploy oracle (the loop's first call is the second call overall),
`askIdx` indexes the name-prompt oracle, and `kc`/`au`/`du` are the current
`key_candidate` / `api_url` / `deploy_url` (only updated after both asserts
pass).  An empty prompt answer exits the loop leaving them unchanged; a
raised `prepare_deploy` or a failed assert prints the retry message and
loops.  Result `none` means the fuel ran out (the source loop is unbounded). -/
def suggestionLoop (a : DeployArgs) (env : DeployEnv) :
    Nat → Nat → Nat → String → String → String →
    List Event × Option (String × String × String)
  | 0, _, _, _, _, _ => ([], none)
  | fuel + 1, callIdx, askIdx, kc, au, du =>
    let input := env.askKey askIdx
    if input = "" then ([], some (kc, au, du))
    else
      let t : List Event := [.prepareCall a.appName (some input) a.frontendHostname]
      match env.prepare callIdx with
      | .error _ =>
        let r := suggestionLoop a env fuel (callIdx + 1) (askIdx + 1) kc au du
        (t ++ Event.errorMsg retryMsg :: r.1, r.2)
      | .ok resp =>
        match resp.reply with
        | none =>
          let r := suggestionLoop a env fuel (callIdx + 1) (askIdx + 1) kc au du
          (t ++ Event.errorMsg retryMsg :: r.1, r.2)
        | some rep =>
          if rep.key = input then (t, some (rep.key, rep.api_url, rep.deploy_url))
          else
            let r := suggestionLoop a env fuel (callIdx + 1) (askIdx + 1) kc au du
            (t ++ Event.errorMsg retryMsg :: r.1, r.2)

/-- The interactive env-entry loop (lines 563-575): prompt for a name until
the operator enters an empty one, appending `name=value` to the env list;
the terminating prompt prints one of two messages depending on whether the
full env list (CLI entries included) is empty.  Result `none` means the
fuel ran out. -/
def envLoop (env : DeployEnv) : Nat → Nat → List String → List Event × Option (List String)
  | 0, _, _ => ([], none)
  | fuel + 1, i, acc =>
    let k := env.envKeyAnswers i
    if k = "" then
      (if acc.isEmpty then [.printMsg noEnvsMsg] else [.printMsg finishedEnvsMsg], some acc)
    else
      envLoop env fuel (i + 1) (acc ++ [k ++ "=" ++ env.envValAnswers i])

/-- The interactive branch on the first prepare-deploy response (lines
503-543): `reply` taken as-is; else first `existing` entry offered as an
overwrite target; else the suggestion loop; else everything stays empty.
Returns the extra trace and `(key_candidate, api_url, deploy_url,
overwrite_existing)`, or `none` if the suggestion loop ran out of fuel. -/
def interactiveBranch (a : DeployArgs) (env : DeployEnv) (fuelS : Nat) (r0 : PrepareResp) :
    List Event × Option (String × String × String × Bool) :=
  match r0.reply with
  | some rep => ([], some (rep.key, rep.api_url, rep.deploy_url, false))
  | none =>
    match r0.existing with
    | e0 :: _ => ([.printOverwrite e0.key], some (e0.key, e0.api_url, e0.deploy_url, true))
    | [] =>
      match r0.suggestion with
      | some s =>
        let r := suggestionLoop a env fuelS 1 0 s.key s.api_url s.deploy_url
        (r.1, r.2.map (fun kad => (kad.1, kad.2.1, kad.2.2, false)))
      | none => ([], some ("", "", "", false))

/-- Result of the negotiation phase: either early termination with an
outcome, or continuation with the negotiated values. -/
inductive Phase1Out where
  | early (o : Outcome)
  | go (nr : NegotiationResult)
  deriving DecidableEq, Repr

/-- Everything of `deploy` before the required-parameter check at line 579:
feature gate, non-interactive key requirement, local precondition checks,
the first prepare-deploy call and the interactive (or non-interactive)
resolution of key, regions and envs. -/
def deployPhase1 (a : DeployArgs) (env : DeployEnv) (fuelS fuelE : Nat) :
    List Event × Phase1Out :=
  if env.featureEnabled = false then ([], .early .completed)
  else if a.interactive = false ∧ keyFalsy a.key = true then
    ([.errorMsg keyRequiredMsg], .early (.exited 1))
  else if env.requirementsOk = false then ([.errorMsg requirementsMsg], .early (.exited 1))
  else if env.initializedOk = false then ([.errorMsg notInitMsg], .early (.exited 1))
  else
    let t0 : List Event := [.prepareCall a.appName a.key a.frontendHostname]
    match env.prepare 0 with
    | .error _ => (t0 ++ [.errorMsg prepareFailedMsg], .early (.exited 1))
    | .ok r0 =>
      if a.interactive = false then
        match r0.reply with
        | none => (t0 ++ [.errorMsg nameUnavailableMsg], .early (.exited 1))
        | some rep =>
          (t0, .go ⟨(a.key).getD "", a.regions, r0.appPfx, rep.api_url, rep.deploy_url,
            false, a.envs⟩)
      else
        let ib := interactiveBranch a env fuelS r0
        match ib.2 with
        | none => (t0 ++ ib.1, .early .diverged)
        | some (kc, au, du, ow) =>
          if kc = "" ∨ au = "" ∨ du = "" then
            (t0 ++ ib.1 ++ [.errorMsg noSuitableKeyMsg], .early (.exited 1))
          else
            let rs := if a.regions.isEmpty then [env.askRegion] else a.regions
            let el := envLoop env fuelE 0 a.envs
            match el.2 with
            | none => (t0 ++ ib.1 ++ Event.printMsg envVarsMsg :: el.1, .early .diverged)
            | some envs2 =>
              (t0 ++ ib.1 ++ Event.printMsg envVarsMsg :: el.1,
                .go ⟨kc, rs, r0.appPfx, au, du, ow, envs2⟩)

/-- The required-parameter check of line 579: any of key, regions,
app_name, app_prefix, api_url empty. -/
def requiredMissing (a : DeployArgs) (nr : NegotiationResult) : Bool :=
  decide (nr.key = "" ∨ nr.regions = [] ∨ a.appName = "" ∨ nr.appPfx = "" ∨ nr.apiUrl = "")

/-- One status-poll loop (lines 652-656 / 662-666): up to `budget`
attempts, breaking on the first success, sleeping one second after each
failure.  `pe` is the poll event of the side being checked and `up i` the
result of the (i+1)-st poll. -/
def pollLoopFrom (pe : Event) (up : Nat → Bool) : Nat → Nat → List Event × Bool
  | 0, _ => ([], false)
  | n + 1, i =>
    if up i then ([pe], true)
    else
      let r := pollLoopFrom pe up n (i + 1)
      (pe :: Event.sleep 1 :: r.1, r.2)

/-- The poll loop started at attempt 0. -/
def pollLoop (pe : Event) (up : Nat → Bool) (budget : Nat) : List Event × Bool :=
  pollLoopFrom pe up budget 0

/-- The events of lines 637-673: the start notice, the optional overwrite
drain wait (an unconditional 60-second sleep), the backend poll loop and
its status report, the frontend poll loop and its status report, and the
final bare `hosting.clean_up()` call. -/
def afterUploadTrace (env : DeployEnv) (nr : NegotiationResult)
    (dr : DeployResponse) : List Event :=
  let pb := pollLoop (.pollBackend dr.backend_url) env.backendUp env.backendBudget
  let pf := pollLoop (.pollFrontend dr.frontend_url) env.frontendUp env.frontendBudget
  [.printMsg startShortlyMsg]
    ++ (if nr.overwrite then Event.printMsg oldComeDownMsg :: List.replicate 60 (Event.sleep 1)
        else [])
    ++ [.printMsg newComeUpMsg]
    ++ pb.1
    ++ [if pb.2 then Event.printMsg backendUpMsg else Event.printMsg backendUnreachableMsg]
    ++ pf.1
    ++ [if pf.2 then Event.printMsg frontendUpMsg else Event.printMsg frontendUnreachableMsg]
    ++ [Event.cleanupCall]

/-- The tail of `deploy` after a successful upload (lines 637-681):
the polling trace above followed by the final report.  The bare
`hosting.clean_up()` call is the last event of `afterUploadTrace`; when it
raises, the exception propagates uncaught out of the command. -/
def afterUploadOk (env : DeployEnv) (nr : NegotiationResult)
    (dr : DeployResponse) : List Event × Outcome :=
  if env.cleanupOk = false then (afterUploadTrace env nr dr, .uncaught)
  else if (pollLoop (.pollFrontend dr.frontend_url) env.frontendUp env.frontendBudget).2
      && (pollLoop (.pollBackend dr.backend_url) env.backendUp env.backendBudget).2 then
    (afterUploadTrace env nr dr ++ [.printSiteUp nr.key nr.regions dr.frontend_url], .completed)
  else (afterUploadTrace env nr dr ++ [.warnMsg slowWarnMsg], .completed)

/-- Everything of `deploy` from the required-parameter check at line 579 to
the end: parameter check, env validation, export (only `ImportError` is
caught), the upload call with its failure path (error, suppressed cleanup,
exit 1), and the post-upload tail. -/
def deployRest (a : DeployArgs) (env : DeployEnv) (nr : NegotiationResult) :
    List Event × Outcome :=
  if requiredMissing a nr then ([.errorMsg missingParamsMsg], .exited 1)
  else
    match processedEnvs nr.envs with
    | .error m => ([.errorMsg m], .exited 1)
    | .ok pe =>
      if env.exportOk = false then ([.errorMsg importFailedMsg], .exited 1)
      else
        let t0 : List Event :=
          [.printMsg uploadingMsg,
           .uploadCall nr.key a.appName nr.regions nr.appPfx nr.apiUrl pe]
        match env.uploadResult with
        | .error _ => (t0 ++ [.errorMsg uploadFailedMsg, .cleanupCall], .exited 1)
        | .ok dr =>
          let r := afterUploadOk env nr dr
          (t0 ++ r.1, r.2)

/-- The whole `deploy` command. -/
def deploy (a : DeployArgs) (env : DeployEnv) (fuelS fuelE : Nat) : List Event × Outcome :=
  match deployPhase1 a env fuelS fuelE with
  | (t, .early o) => (t, o)
  | (t, .go nr) =>
    let r := deployRest a env nr
    (t ++ r.1, r.2)

/-! ### The `login` command (lines 266-334) -/

/-- Result of one `hosting.validate_token` call: success, the explicit
invalid-token signal (`ValueError` in the source), or any other
(transient) exception. -/
inductive VRes where
  | ok
  | invalid
  | err
  deriving DecidableEq, Repr

/-- How the validation loop ended. -/
inductive ValidateOutcome where
  | validated
  | denied
  | exhausted
  deriving DecidableEq, Repr

/-- Oracle environment for a `login` execution.  `existingToken` is the
result of `get_existing_access_token` (`none` models its raising);
`fetchResult i` is the result of the (i+1)-st `fetch_token` call (`none`
models its raising); `validateRes i` is the result of the (i+1)-st
`validate_token` call.  `authBound` embeds
`constants.Hosting.WEB_AUTH_TIMEOUT`, the bounded attempt count of both
5-second loops (defined outside this file's source, hence a parameter). -/
structure LoginEnv where
  featureEnabled : Bool
  existingToken : Option (String × String)
  browserOpens : Bool
  fetchResult : Nat → Option (String × String)
  validateRes : Nat → VRes
  authBound : Nat

/-- The token-validation loop of `login` (lines 312-325): up to `n`
attempts; success breaks out; the invalid-token signal prints the
access-denied error, deletes the persisted token and is terminal; any
other failure sleeps 5 seconds and retries. -/
def validateLoopFrom (v : Nat → VRes) : Nat → Nat → List Event × ValidateOutcome
  | 0, _ => ([], .exhausted)
  | n + 1, i =>
    match v i with
    | .ok => ([.validateCall], .validated)
    | .invalid => ([.validateCall, .errorMsg accessDeniedMsg, .deleteToken], .denied)
    | .err =>
      let r := validateLoopFrom v n (i + 1)
      (Event.validateCall :: Event.sleep 5 :: r.1, r.2)

/-- The token-fetch loop of `login` (lines 298-304): up to `n` attempts;
success breaks out; a raised `fetch_token` is swallowed and retried after
a 5-second sleep. -/
def fetchLoop (f : Nat → Option (String × String)) : Nat → Nat → List Event × Option (String × String)
  | 0, _ => ([], none)
  | n + 1, i =>
    match f i with
    | some tc => ([.fetchTokenCall], some tc)
    | none =>
      let r := fetchLoop f n (i + 1)
      (Event.fetchTokenCall :: Event.sleep 5 :: r.1, r.2)

/-- The validation phase of `login` (lines 312-334), shared by the
existing-token and freshly-fetched-token paths. -/
def loginValidate (env : LoginEnv) (usingExisting : Bool) : List Event × Outcome :=
  let vl := validateLoopFrom env.validateRes env.authBound 0
  match vl.2 with
  | .denied => (vl.1, .exited 1)
  | .exhausted => (vl.1 ++ [.errorMsg validateFailMsg], .exited 1)
  | .validated =>
    if usingExisting then (vl.1 ++ [.printMsg alreadyLoggedInMsg], .completed)
    else (vl.1 ++ [Event.saveToken, .printMsg loggedInMsg], .completed)

/-- The whole `login` command. -/
def login (env : LoginEnv) : List Event × Outcome :=
  if env.featureEnabled = false then ([], .completed)
  else
    match env.existingToken with
    | some _ => loginValidate env true
    | none =>
      if env.browserOpens = false then
        ([.printMsg openingMsg, .errorMsg browserMsg], .exited 1)
      else
        let fl := fetchLoop env.fetchResult env.authBound 0
        match fl.2 with
        | none =>
          (Event.printMsg openingMsg :: fl.1 ++ [.errorMsg fetchFailMsg], .exited 1)
        | some tc =>
          if tc.1 = "" then
            (Event.printMsg openingMsg :: fl.1 ++ [.errorMsg fetchFailMsg], .exited 1)
          else
            let r := loginValidate env false
            (Event.printMsg openingMsg :: fl.1 ++ r.1, r.2)

/-! ### Port resolution in `run` (lines 156-161) -/

/-- Port resolution for one side of `run`: when the side is enabled and
something is already listening on the requested port, the operator is asked
to change or terminate it (`negotiate`); otherwise the requested port is
kept unchanged. -/
def resolveRunPort (enabled : Bool) (isOnPort : String → Bool)
    (negotiate : String → String) (port : String) : String :=
  if enabled && isOnPort port then negotiate port else port

end Reflex

namespace Reflex

/-! ### Shared concrete fixtures (used by witnesses and counterexamples) -/

/-- A prepare-deploy reply with all fields populated. -/
def sampleReply : Reply := ⟨"mykey", "https://api", "https://deploy"⟩

/-- A prepare-deploy response that confirms the requested key. -/
def sampleResp : PrepareResp := ⟨"pfx", some sampleReply, [], none⟩

/-- Baseline non-interactive `deploy` arguments. -/
def sampleArgs : DeployArgs :=
  { key := some "mykey", appName := "app", regions := ["sjc"], envs := [],
    frontendHostname := none, interactive := false }

/-- Baseline oracle: every external interaction succeeds at once. -/
def sampleEnv : DeployEnv :=
  { featureEnabled := true, requirementsOk := true, initializedOk := true,
    prepare := fun _ => .ok sampleResp,
    askKey := fun _ => "", askRegion := "sjc",
    envKeyAnswers := fun _ => "", envValAnswers := fun _ => "",
    exportOk := true, uploadResult := .ok ⟨"http://b", "http://f"⟩,
    cleanupOk := true,
    backendUp := fun _ => true, frontendUp := fun _ => true,
    backendBudget := 5, frontendBudget := 5 }

/-! ### Event classification -/

/-- Events that the negotiation phase (`deployPhase1`) can emit. -/
def negotiationEvent : Event → Bool
  | .prepareCall _ _ _ => true
  | .errorMsg _ => true
  | .printMsg _ => true
  | .printOverwrite _ => true
  | _ => false

/-- Events that the post-upload tail (`afterUploadOk`) can emit. -/
def postUploadEvent : Event → Bool
  | .printMsg _ => true
  | .sleep _ => true
  | .pollBackend _ => true
  | .pollFrontend _ => true
  | .cleanupCall => true
  | .printSiteUp _ _ _ => true
  | .warnMsg _ => true
  | _ => false

/-- Recognizer for prepare-deploy calls. -/
def isPrepareEvent : Event → Bool
  | .prepareCall _ _ _ => true
  | _ => false

/-- Recognizer for upload calls. -/
def isUploadEvent : Event → Bool
  | .uploadCall _ _ _ _ _ _ => true
  | _ => false

/-- Recognizer for status polls and sleeps. -/
def isPollOrSleepEvent : Event → Bool
  | .pollBackend _ => true
  | .pollFrontend _ => true
  | .sleep _ => true
  | _ => false

/-- The trace of `k` failed retry rounds: a call event followed by a
`slp`-second sleep, `k` times. -/
def retryTrace (pe : Event) (slp : Nat) : Nat → List Event
  | 0 => []
  | k + 1 => pe :: Event.sleep slp :: retryTrace pe slp k

/-! ### Classification bridges -/

theorem negotiationEvent_not_upload {e : Event} (h : negotiationEvent e = true) :
    isUploadEvent e = false := by
  cases e <;> simp_all [negotiationEvent, isUploadEvent]

theorem negotiationEvent_not_pollsleep {e : Event} (h : negotiationEvent e = true) :
    isPollOrSleepEvent e = false := by
  cases e <;> simp_all [negotiationEvent, isPollOrSleepEvent]

theorem postUploadEvent_not_prepare {e : Event} (h : postUploadEvent e = true) :
    isPrepareEvent e = false := by
  cases e <;> simp_all [postUploadEvent, isPrepareEvent]

theorem postUploadEvent_not_upload {e : Event} (h : postUploadEvent e = true) :
    isUploadEvent e = false := by
  cases e <;> simp_all [postUploadEvent, isUploadEvent]

/-! ### Membership lemmas for the loops -/

theorem pollLoopFrom_events (pe : Event) (up : Nat → Bool) :
    ∀ n i e, e ∈ (pollLoopFrom pe up n i).1 → e = pe ∨ e = Event.sleep 1 := by
  intro n
  induction n with
  | zero => intro i e he; simp [pollLoopFrom] at he
  | succ m ih =>
    intro i e he
    simp only [pollLoopFrom] at he
    by_cases hu : up i
    · simp [hu] at he
      exact Or.inl he
    · simp only [hu, if_false, Bool.false_eq_true, List.mem_cons] at he
      rcases he with rfl | rfl | he
      · exact Or.inl rfl
      · exact Or.inr rfl
      · exact ih _ _ he

theorem suggestionLoop_events (a : DeployArgs) (env : DeployEnv) :
    ∀ fuel callIdx askIdx kc au du e,
      e ∈ (suggestionLoop a env fuel callIdx askIdx kc au du).1 →
      negotiationEvent e = true := by
  intro fuel
  induction fuel with
  | zero => intro ci ai kc au du e he; simp [suggestionLoop] at he
  | succ n ih =>
    intro ci ai kc au du e he
    simp only [suggestionLoop] at he
    by_cases hi : env.askKey ai = ""
    · simp [hi] at he
    · simp only [if_neg hi] at he
      rcases hp : env.prepare ci with u | resp <;> simp only [hp] at he
      · simp only [List.cons_append, List.nil_append, List.mem_cons] at he
        rcases he with rfl | rfl | he
        · rfl
        · rfl
        · exact ih _ _ _ _ _ _ he
      · rcases hr : resp.reply with _ | rep <;> simp only [hr] at he
        · simp only [List.cons_append, List.nil_append, List.mem_cons] at he
          rcases he with rfl | rfl | he
          · rfl
          · rfl
          · exact ih _ _ _ _ _ _ he
        · by_cases hk : rep.key = env.askKey ai
          · simp only [if_pos hk, List.mem_singleton] at he
            subst he; rfl
          · simp only [if_neg hk, List.cons_append, List.nil_append, List.mem_cons] at he
            rcases he with rfl | rfl | he
            · rfl
            · rfl
            · exact ih _ _ _ _ _ _ he

theorem envLoop_events (env : DeployEnv) :
    ∀ fuel i acc e, e ∈ (envLoop env fuel i acc).1 → negotiationEvent e = true := by
  intro fuel
  induction fuel with
  | zero => intro i acc e he; simp [envLoop] at he
  | succ n ih =>
    intro i acc e he
    simp only [envLoop] at he
    by_cases hk : env.envKeyAnswers i = ""
    · simp only [if_pos hk] at he
      by_cases ha : acc.isEmpty <;> simp [ha] at he <;> subst he <;> rfl
    · simp only [if_neg hk] at he
      exact ih _ _ _ he

theorem interactiveBranch_events (a : DeployArgs) (env : DeployEnv) (fuelS : Nat)
    (r0 : PrepareResp) :
    ∀ e ∈ (interactiveBranch a env fuelS r0).1, negotiationEvent e = true := by
  intro e he
  unfold interactiveBranch at he
  rcases hrr : r0.reply with _ | rep <;> simp only [hrr] at he
  · rcases hre : r0.existing with _ | ⟨e0, rest⟩ <;> simp only [hre] at he
    · rcases hrs : r0.suggestion with _ | s <;> simp only [hrs] at he
      · simp at he
      · exact suggestionLoop_events a env _ _ _ _ _ _ _ he
    · simp only [List.mem_singleton] at he
      subst he; rfl
  · simp at he

theorem deployPhase1_events (a : DeployArgs) (env : DeployEnv) (fuelS fuelE : Nat) :
    ∀ e ∈ (deployPhase1 a env fuelS fuelE).1, negotiationEvent e = true := by
  intro e he
  unfold deployPhase1 at he
  by_cases hf : env.featureEnabled = false
  · simp [hf] at he
  · simp only [if_neg hf] at he
    by_cases hkc : a.interactive = false ∧ keyFalsy a.key = true
    · simp only [if_pos hkc, List.mem_singleton] at he
      subst he; rfl
    · simp only [if_neg hkc] at he
      by_cases hr : env.requirementsOk = false
      · simp only [if_pos hr, List.mem_singleton] at he
        subst he; rfl
      · simp only [if_neg hr] at he
        by_cases hin : env.initializedOk = false
        · simp only [if_pos hin, List.mem_singleton] at he
          subst he; rfl
        · simp only [if_neg hin] at he
          rcases hp : env.prepare 0 with u | r0 <;> simp only [hp] at he
          · simp only [List.cons_append, List.nil_append, List.mem_cons,
              List.not_mem_nil, or_false] at he
            rcases he with rfl | rfl <;> rfl
          · by_cases hia : a.interactive = false
            · simp only [if_pos hia] at he
              rcases hrr : r0.reply with _ | rep <;> simp only [hrr] at he
              · simp only [List.cons_append, List.nil_append, List.mem_cons,
                  List.not_mem_nil, or_false] at he
                rcases he with rfl | rfl <;> rfl
              · simp only [List.mem_singleton] at he
                subst he; rfl
            · simp only [if_neg hia] at he
              rcases hib : (interactiveBranch a env fuelS r0).2 with _ | ⟨kc, au, du, ow⟩ <;>
                simp only [hib] at he
              · rcases List.mem_append.mp he with he | he
                · simp only [List.mem_singleton] at he
                  subst he; rfl
                · exact interactiveBranch_events a env fuelS r0 e he
              · by_cases hemp : kc = "" ∨ au = "" ∨ du = ""
                · simp only [if_pos hemp] at he
                  rcases List.mem_append.mp he with he | he
                  · rcases List.mem_append.mp he with he | he
                    · simp only [List.mem_singleton] at he
                      subst he; rfl
                    · exact interactiveBranch_events a env fuelS r0 e he
                  · simp only [List.mem_singleton] at he
                    subst he; rfl
                · simp only [if_neg hemp] at he
                  rcases hel : (envLoop env fuelE 0 a.envs).2 with _ | envs2 <;>
                    simp only [hel] at he
                  all_goals
                    rcases List.mem_append.mp he with he | he
                    · rcases List.mem_append.mp he with he | he
                      · simp only [List.mem_singleton] at he
                        subst he; rfl
                      · exact interactiveBranch_events a env fuelS r0 e he
                    · rcases List.mem_cons.mp he with rfl | he
                      · rfl
                      · exact envLoop_events env _ _ _ _ he

/-! ### Structure of the post-upload trace -/

theorem afterUploadTrace_events (env : DeployEnv) (nr : NegotiationResult)
    (dr : DeployResponse) :
    ∀ e ∈ afterUploadTrace env nr dr, postUploadEvent e = true := by
  intro e he
  unfold afterUploadTrace at he
  simp only [List.mem_append] at he
  rcases he with ((((((he | he) | he) | he) | he) | he) | he) | he
  · simp only [List.mem_singleton] at he; subst he; rfl
  · split at he
    · rcases List.mem_cons.mp he with rfl | he
      · rfl
      · rw [List.eq_of_mem_replicate he]; rfl
    · simp at he
  · simp only [List.mem_singleton] at he; subst he; rfl
  · rcases pollLoopFrom_events _ _ _ _ _ he with rfl | rfl <;> rfl
  · simp only [List.mem_singleton] at he; subst he
    split <;> rfl
  · rcases pollLoopFrom_events _ _ _ _ _ he with rfl | rfl <;> rfl
  · simp only [List.mem_singleton] at he; subst he
    split <;> rfl
  · simp only [List.mem_singleton] at he; subst he; rfl

theorem afterUploadTrace_cleanup (env : DeployEnv) (nr : NegotiationResult)
    (dr : DeployResponse) :
    Event.cleanupCall ∈ afterUploadTrace env nr dr := by
  unfold afterUploadTrace
  simp

theorem afterUploadOk_events (env : DeployEnv) (nr : NegotiationResult)
    (dr : DeployResponse) :
    ∀ e ∈ (afterUploadOk env nr dr).1, postUploadEvent e = true := by
  intro e he
  unfold afterUploadOk at he
  split at he
  · exact afterUploadTrace_events env nr dr e he
  · split at he
    · rcases List.mem_append.mp he with he | he
      · exact afterUploadTrace_events env nr dr e he
      · simp only [List.mem_singleton] at he; subst he; rfl
    · rcases List.mem_append.mp he with he | he
      · exact afterUploadTrace_events env nr dr e he
      · simp only [List.mem_singleton] at he; subst he; rfl

theorem afterUploadOk_cleanup (env : DeployEnv) (nr : NegotiationResult)
    (dr : DeployResponse) :
    Event.cleanupCall ∈ (afterUploadOk env nr dr).1 := by
  unfold afterUploadOk
  split
  · exact afterUploadTrace_cleanup env nr dr
  · split
    · exact List.mem_append.mpr (Or.inl (afterUploadTrace_cleanup env nr dr))
    · exact List.mem_append.mpr (Or.inl (afterUploadTrace_cleanup env nr dr))

theorem afterUploadOk_uncaught (env : DeployEnv) (nr : NegotiationResult)
    (dr : DeployResponse) (hc : env.cleanupOk = false) :
    (afterUploadOk env nr dr).2 = .uncaught := by
  unfold afterUploadOk
  simp [hc]

theorem afterUploadOk_warn (env : DeployEnv) (nr : NegotiationResult)
    (dr : DeployResponse) (hc : env.cleanupOk = true)
    (hne : (pollLoop (.pollBackend dr.backend_url) env.backendUp env.backendBudget).2
      ≠ (pollLoop (.pollFrontend dr.frontend_url) env.frontendUp env.frontendBudget).2) :
    (afterUploadOk env nr dr).2 = .completed
    ∧ Event.warnMsg slowWarnMsg ∈ (afterUploadOk env nr dr).1 := by
  unfold afterUploadOk
  rcases hb : (pollLoop (.pollBackend dr.backend_url) env.backendUp env.backendBudget).2 <;>
    rcases hf : (pollLoop (.pollFrontend dr.frontend_url) env.frontendUp env.frontendBudget).2 <;>
      simp_all

/-! ### Structure of the post-negotiation phase -/

theorem deployRest_no_prepare (a : DeployArgs) (env : DeployEnv) (nr : NegotiationResult) :
    ∀ e ∈ (deployRest a env nr).1, isPrepareEvent e = false := by
  intro e he
  unfold deployRest at he
  split at he
  · simp only [List.mem_singleton] at he; subst he; rfl
  · split at he
    · simp only [List.mem_singleton] at he; subst he; rfl
    · split at he
      · simp only [List.mem_singleton] at he; subst he; rfl
      · split at he
        · simp only [List.cons_append, List.nil_append, List.mem_cons,
            List.not_mem_nil, or_false] at he
          rcases he with rfl | rfl | rfl | rfl <;> rfl
        · rcases List.mem_append.mp he with he | he
          · simp only [List.mem_cons, List.not_mem_nil, or_false] at he
            rcases he with rfl | rfl <;> rfl
          · exact postUploadEvent_not_prepare (afterUploadOk_events env nr _ e he)

theorem deployRest_upload_inv (a : DeployArgs) (env : DeployEnv) (nr : NegotiationResult)
    (k an : String) (rs : List String) (ap au : String)
    (pev : Option (List (String × String)))
    (h : Event.uploadCall k an rs ap au pev ∈ (deployRest a env nr).1) :
    k = nr.key ∧ an = a.appName ∧ rs = nr.regions ∧ ap = nr.appPfx ∧ au = nr.apiUrl
    ∧ requiredMissing a nr = false ∧ processedEnvs nr.envs = Except.ok pev
    ∧ env.exportOk = true := by
  unfold deployRest at h
  split at h
  · simp at h
  · next hrm =>
    split at h
    · simp at h
    · next pev2 hpeq =>
      split at h
      · simp at h
      · next hex =>
        have hrm2 : requiredMissing a nr = false := by
          revert hrm; cases requiredMissing a nr <;> simp
        have hex2 : env.exportOk = true := by
          revert hex; cases env.exportOk <;> simp
        split at h <;>
        · simp only [List.cons_append, List.nil_append, List.mem_cons] at h
          rcases h with h | h | h
          · exact absurd h (by simp)
          · rw [Event.uploadCall.injEq] at h
            obtain ⟨h1, h2, h3, h4, h5, h6⟩ := h
            exact ⟨h1, h2, h3, h4, h5, hrm2, h6 ▸ hpeq, hex2⟩
          · first
            | (simp only [List.mem_cons, List.not_mem_nil, or_false] at h
               rcases h with h | h <;> exact absurd h (by simp))
            | (exact absurd (postUploadEvent_not_upload (afterUploadOk_events env nr _ _ h))
                (by simp [isUploadEvent]))

theorem deployRest_reach (a : DeployArgs) (env : DeployEnv) (nr : NegotiationResult)
    (pev : Option (List (String × String))) (dr : DeployResponse)
    (hrm : requiredMissing a nr = false)
    (hpe : processedEnvs nr.envs = Except.ok pev) (hex : env.exportOk = true)
    (hu : env.uploadResult = Except.ok dr) :
    deployRest a env nr
      = (Event.printMsg uploadingMsg
          :: Event.uploadCall nr.key a.appName nr.regions nr.appPfx nr.apiUrl pev
          :: (afterUploadOk env nr dr).1,
         (afterUploadOk env nr dr).2) := by
  unfold deployRest
  simp [hrm, hpe, hex, hu]

theorem deployRest_uploadErr (a : DeployArgs) (env : DeployEnv) (nr : NegotiationResult)
    (pev : Option (List (String × String)))
    (hrm : requiredMissing a nr = false)
    (hpe : processedEnvs nr.envs = Except.ok pev) (hex : env.exportOk = true)
    (hu : env.uploadResult = Except.error ()) :
    deployRest a env nr
      = ([Event.printMsg uploadingMsg,
          Event.uploadCall nr.key a.appName nr.regions nr.appPfx nr.apiUrl pev,
          Event.errorMsg uploadFailedMsg, Event.cleanupCall], .exited 1) := by
  unfold deployRest
  simp [hrm, hpe, hex, hu]

theorem deployRest_missing (a : DeployArgs) (env : DeployEnv) (nr : NegotiationResult)
    (hrm : requiredMissing a nr = true) :
    deployRest a env nr = ([Event.errorMsg missingParamsMsg], .exited 1) := by
  unfold deployRest
  simp [hrm]

theorem deployRest_envError (a : DeployArgs) (env : DeployEnv) (nr : NegotiationResult)
    (m : String) (hrm : requiredMissing a nr = false)
    (hpe : processedEnvs nr.envs = Except.error m) :
    deployRest a env nr = ([Event.errorMsg m], .exited 1) := by
  unfold deployRest
  simp [hrm, hpe]

/-! ### Lifting to the whole command -/

theorem deploy_early (a : DeployArgs) (env : DeployEnv) (fS fE : Nat)
    (t1 : List Event) (o : Outcome)
    (hP : deployPhase1 a env fS fE = (t1, Phase1Out.early o)) :
    deploy a env fS fE = (t1, o) := by
  unfold deploy
  rw [hP]

theorem deploy_go (a : DeployArgs) (env : DeployEnv) (fS fE : Nat)
    (t1 : List Event) (nr : NegotiationResult)
    (hP : deployPhase1 a env fS fE = (t1, Phase1Out.go nr)) :
    deploy a env fS fE = (t1 ++ (deployRest a env nr).1, (deployRest a env nr).2) := by
  unfold deploy
  rw [hP]

theorem deploy_upload_reached (a : DeployArgs) (env : DeployEnv) (fS fE : Nat)
    (k an : String) (rs : List String) (ap au : String)
    (pev : Option (List (String × String)))
    (h : Event.uploadCall k an rs ap au pev ∈ (deploy a env fS fE).1) :
    ∃ t1 nr, deployPhase1 a env fS fE = (t1, Phase1Out.go nr)
      ∧ Event.uploadCall k an rs ap au pev ∈ (deployRest a env nr).1 := by
  rcases hP : deployPhase1 a env fS fE with ⟨t1, o⟩
  rcases o with o | nr
  · rw [deploy_early a env fS fE t1 o hP] at h
    have hne := deployPhase1_events a env fS fE _ (by rw [hP]; exact h)
    exact absurd (negotiationEvent_not_upload hne) (by simp [isUploadEvent])
  · rw [deploy_go a env fS fE t1 nr hP] at h
    rcases List.mem_append.mp h with h | h
    · have hne := deployPhase1_events a env fS fE _ (by rw [hP]; exact h)
      exact absurd (negotiationEvent_not_upload hne) (by simp [isUploadEvent])
    · exact ⟨t1, nr, rfl, h⟩

/-! ### Characterization of the bounded retry loops -/

theorem pollLoopFrom_found (pe : Event) (up : Nat → Bool) :
    ∀ k n i, (∀ j, j < k → up (i + j) = false) → up (i + k) = true → k < n →
      pollLoopFrom pe up n i = (retryTrace pe 1 k ++ [pe], true) := by
  intro k
  induction k with
  | zero =>
    intro n i hj hk hn
    rcases n with _ | m
    · omega
    · have hi : up i = true := by simpa using hk
      simp [pollLoopFrom, hi, retryTrace]
  | succ k ih =>
    intro n i hj hk hn
    rcases n with _ | m
    · omega
    · have hi : up i = false := by simpa using hj 0 (by omega)
      have h1 : ∀ j, j < k → up ((i + 1) + j) = false := by
        intro j hjk
        have e1 : (i + 1) + j = i + (j + 1) := by omega
        rw [e1]
        exact hj (j + 1) (by omega)
      have h2 : up ((i + 1) + k) = true := by
        have e2 : (i + 1) + k = i + (k + 1) := by omega
        rw [e2]
        exact hk
      have hrec := ih m (i + 1) h1 h2 (by omega)
      simp [pollLoopFrom, hi, hrec, retryTrace]

theorem validateLoopFrom_denied (v : Nat → VRes) :
    ∀ k n i, (∀ j, j < k → v (i + j) = .err) → v (i + k) = .invalid → k < n →
      validateLoopFrom v n i
        = (retryTrace Event.validateCall 5 k
            ++ [Event.validateCall, Event.errorMsg accessDeniedMsg, Event.deleteToken],
           .denied) := by
  intro k
  induction k with
  | zero =>
    intro n i hj hk hn
    rcases n with _ | m
    · omega
    · have hi : v i = .invalid := by simpa using hk
      simp [validateLoopFrom, hi, retryTrace]
  | succ k ih =>
    intro n i hj hk hn
    rcases n with _ | m
    · omega
    · have hi : v i = .err := by simpa using hj 0 (by omega)
      have h1 : ∀ j, j < k → v ((i + 1) + j) = .err := by
        intro j hjk
        have e1 : (i + 1) + j = i + (j + 1) := by omega
        rw [e1]
        exact hj (j + 1) (by omega)
      have h2 : v ((i + 1) + k) = .invalid := by
        have e2 : (i + 1) + k = i + (k + 1) := by omega
        rw [e2]
        exact hk
      have hrec := ih m (i + 1) h1 h2 (by omega)
      simp [validateLoopFrom, hi, hrec, retryTrace]

/-! ### Env-validation failure propagates -/

theorem processEnvs_error_of_bad (s : String) (hb : envEntryOk s = false) :
    ∀ envs acc, s ∈ envs → ∃ m, processEnvs envs acc = Except.error m := by
  intro envs
  induction envs with
  | nil => intro acc h; simp at h
  | cons e rest ih =>
    intro acc h
    rcases List.mem_cons.mp h with rfl | h
    · unfold envEntryOk at hb
      rcases hsp : splitFirstEq s with _ | ⟨k, _ | ⟨v, _ | _⟩⟩ <;>
        simp only [hsp] at hb <;> simp [processEnvs, hsp, hb]
    · rcases hsp : splitFirstEq e with _ | ⟨k, _ | ⟨v, _ | _⟩⟩ <;>
        simp only [processEnvs, hsp]
      · exact ⟨invalidEnvFormatMsg, rfl⟩
      · exact ⟨invalidEnvFormatMsg, rfl⟩
      · by_cases hm : pyEnvNameMatch k = true
        · simp only [hm, if_true]
          exact ih _ h
        · have hm2 : pyEnvNameMatch k = false := by
            revert hm; cases pyEnvNameMatch k <;> simp
          simp [hm2]
      · exact ⟨invalidEnvFormatMsg, rfl⟩

/-! ### First-split characterization (for the env `name=value` format) -/

theorem eqSplit_char (l : List Char) :
    l.contains '=' = true →
    l.takeWhile (fun c => c ≠ '=') ++ '=' :: (l.dropWhile (fun c => c ≠ '=')).tail = l
    ∧ (l.takeWhile (fun c => c ≠ '=')).contains '=' = false := by
  induction l with
  | nil => intro h; simp at h
  | cons c cs ih =>
    intro h
    by_cases hc : c = '='
    · subst hc
      refine ⟨?_, ?_⟩
      · simp [List.takeWhile_cons, List.dropWhile_cons]
      · simp [List.takeWhile_cons]
    · have hcs : cs.contains '=' = true := by
        simp only [List.contains_cons, Bool.or_eq_true, beq_iff_eq] at h
        rcases h with h | h
        · exact absurd h.symm hc
        · exact h
      obtain ⟨ih1, ih2⟩ := ih hcs
      have ht : (c :: cs).takeWhile (fun c => c ≠ '=') = c :: cs.takeWhile (fun c => c ≠ '=') := by
        simp [List.takeWhile_cons, hc]
      have hd : (c :: cs).dropWhile (fun c => c ≠ '=') = cs.dropWhile (fun c => c ≠ '=') := by
        simp [List.dropWhile_cons, hc]
      refine ⟨?_, ?_⟩
      · rw [ht, hd, List.cons_append, ih1]
      · rw [ht]
        simp only [List.contains_cons, Bool.or_eq_false_iff, beq_eq_false_iff_ne]
        exact ⟨fun he => hc he.symm, ih2⟩

theorem splitFirstEq_spec (s : String) (h : s.data.contains '=' = true) :
    splitFirstEq s = [envName s, envValue s]
    ∧ envName s ++ "=" ++ envValue s = s
    ∧ (envName s).data.contains '=' = false := by
  obtain ⟨h1, h2⟩ := eqSplit_char s.data h
  refine ⟨?_, ?_, ?_⟩
  · unfold splitFirstEq envName envValue
    have hm : '=' ∈ s.data := by simpa using h
    simp [hm]
  · apply String.ext
    rw [String.data_append, String.data_append]
    show s.data.takeWhile (fun c => c ≠ '=') ++ ['='] ++ (s.data.dropWhile (fun c => c ≠ '=')).tail
      = s.data
    rw [List.append_assoc, List.singleton_append]
    exact h1
  · exact h2

theorem splitFirstEq_pair (s k1 v1 : String) (h : splitFirstEq s = [k1, v1]) :
    k1 = envName s ∧ v1 = envValue s ∧ s.data.contains '=' = true := by
  unfold splitFirstEq at h
  by_cases hc : s.data.contains '=' = true
  · simp only [hc, if_true] at h
    obtain ⟨h1, h2⟩ : (⟨s.data.takeWhile (fun c => c ≠ '=')⟩ : String) = k1
        ∧ (⟨(s.data.dropWhile (fun c => c ≠ '=')).tail⟩ : String) = v1 := by
      simpa using h
    exact ⟨h1.symm, h2.symm, hc⟩
  · simp only [hc] at h
    simp at h

/-! ### Dict (insertion-ordered association list) lemmas -/

theorem dictFind_cons_self (p : String × String) (d : List (String × String)) (k : String)
    (hp : p.1 = k) : dictFind (p :: d) k = some p.2 := by
  simp [dictFind, List.find?_cons, hp]

theorem dictFind_cons_ne (p : String × String) (d : List (String × String)) (k : String)
    (hp : ¬(p.1 = k)) : dictFind (p :: d) k = dictFind d k := by
  simp [dictFind, List.find?_cons, hp]

theorem dictFind_map_overwrite_self (k v : String) :
    ∀ d : List (String × String), d.any (fun p => p.1 = k) = true →
      dictFind (d.map fun p => if p.1 = k then (k, v) else p) k = some v := by
  intro d
  induction d with
  | nil => intro h; simp at h
  | cons p ps ih =>
    intro h
    by_cases hp : p.1 = k
    · rw [List.map_cons, if_pos hp, dictFind_cons_self _ _ _ rfl]
    · rw [List.map_cons, if_neg hp, dictFind_cons_ne _ _ _ hp]
      apply ih
      simpa [List.any_cons, hp] using h

theorem dictFind_append_single_self (k v : String) :
    ∀ d : List (String × String), d.any (fun p => p.1 = k) = false →
      dictFind (d ++ [(k, v)]) k = some v := by
  intro d
  induction d with
  | nil => intro _; rw [List.nil_append, dictFind_cons_self _ _ _ rfl]
  | cons p ps ih =>
    intro h
    simp only [List.any_cons, Bool.or_eq_false_iff, decide_eq_false_iff_not] at h
    obtain ⟨hp, hps⟩ := h
    rw [List.cons_append, dictFind_cons_ne _ _ _ hp]
    exact ih (by simpa using hps)

theorem dictFind_dictInsert_self (d : List (String × String)) (k v : String) :
    dictFind (dictInsert d k v) k = some v := by
  unfold dictInsert
  by_cases h : d.any (fun p => p.1 = k) = true
  · rw [if_pos h]
    exact dictFind_map_overwrite_self k v d h
  · have h2 : d.any (fun p => p.1 = k) = false := by
      revert h; cases d.any (fun p => p.1 = k) <;> simp
    rw [if_neg (by simp [h2])]
    exact dictFind_append_single_self k v d h2

theorem dictFind_map_overwrite_ne (k1 v k : String) (hne : k1 ≠ k) :
    ∀ d : List (String × String),
      dictFind (d.map fun p => if p.1 = k1 then (k1, v) else p) k = dictFind d k := by
  intro d
  induction d with
  | nil => rfl
  | cons p ps ih =>
    by_cases hp : p.1 = k1
    · have hpk : ¬(p.1 = k) := fun hk => hne (hp ▸ hk)
      rw [List.map_cons, if_pos hp, dictFind_cons_ne _ _ _ (by simpa using hne),
        dictFind_cons_ne _ _ _ hpk]
      exact ih
    · rw [List.map_cons, if_neg hp]
      by_cases hpk : p.1 = k
      · rw [dictFind_cons_self _ _ _ hpk, dictFind_cons_self _ _ _ hpk]
      · rw [dictFind_cons_ne _ _ _ hpk, dictFind_cons_ne _ _ _ hpk]
        exact ih

theorem dictFind_append_single_ne (k1 v k : String) (hne : k1 ≠ k) :
    ∀ d : List (String × String), dictFind (d ++ [(k1, v)]) k = dictFind d k := by
  intro d
  induction d with
  | nil =>
    rw [List.nil_append, dictFind_cons_ne _ _ _ (by simpa using hne)]
  | cons p ps ih =>
    by_cases hpk : p.1 = k
    · rw [List.cons_append, dictFind_cons_self _ _ _ hpk, dictFind_cons_self _ _ _ hpk]
    · rw [List.cons_append, dictFind_cons_ne _ _ _ hpk, dictFind_cons_ne _ _ _ hpk]
      exact ih

theorem dictFind_dictInsert_ne (d : List (String × String)) (k1 v k : String)
    (hne : k1 ≠ k) :
    dictFind (dictInsert d k1 v) k = dictFind d k := by
  unfold dictInsert
  split
  · exact dictFind_map_overwrite_ne k1 v k hne d
  · exact dictFind_append_single_ne k1 v k hne d

/-- The value the final processed dict holds for `k`: the value of the last
entry of `envs` whose name is `k` (names are compared on the part before
the first `'='`). -/
def lastEnvValue (k : String) (envs : List String) : Option String :=
  (envs.filterMap (fun s => if envName s = k then some (envValue s) else none)).getLast?

theorem processEnvs_find (k : String) :
    ∀ envs acc d, processEnvs envs acc = Except.ok d →
      dictFind d k
        = match (envs.filterMap
            (fun s => if envName s = k then some (envValue s) else none)).getLast? with
          | some v => some v
          | none => dictFind acc k := by
  intro envs
  induction envs with
  | nil =>
    intro acc d h
    simp only [processEnvs, Except.ok.injEq] at h
    subst h
    simp
  | cons e rest ih =>
    intro acc d h
    simp only [processEnvs] at h
    rcases hsp : splitFirstEq e with _ | ⟨k1, _ | ⟨v1, _ | _⟩⟩ <;> simp only [hsp] at h
    · simp at h
    · simp at h
    · by_cases hm : pyEnvNameMatch k1 = true
      · simp only [hm, if_true] at h
        obtain ⟨hk1, hv1, _⟩ := splitFirstEq_pair e k1 v1 hsp
        subst hk1; subst hv1
        have hrec := ih (dictInsert acc (envName e) (envValue e)) d h
        by_cases hek : envName e = k
        · simp only [List.filterMap_cons, hek, if_true, ite_true]
          rcases hfm : rest.filterMap
              (fun s => if envName s = k then some (envValue s) else none) with _ | ⟨x, xs⟩ <;>
            rw [hfm] at hrec
          · rw [hek] at hrec
            simp only [List.getLast?_nil] at hrec
            rw [hrec, dictFind_dictInsert_self]
            simp
          · rcases hg : (x :: xs).getLast? with _ | g
            · simp [List.getLast?_eq_none_iff] at hg
            · rw [hg] at hrec
              rw [hrec, List.getLast?_cons_cons, hg]
        · simp only [List.filterMap_cons, hek, if_false, ite_false]
          rcases hg : (rest.filterMap
              (fun s => if envName s = k then some (envValue s) else none)).getLast? with _ | g <;>
            rw [hg] at hrec
          · rw [hrec, dictFind_dictInsert_ne acc (envName e) (envValue e) k hek]
          · exact hrec
      · have hm2 : pyEnvNameMatch k1 = false := by
          revert hm; cases pyEnvNameMatch k1 <;> simp
        rw [hm2] at h
        simp at h
    · simp at h

/-! ### Prepare-call counting -/

theorem envLoop_no_prepare (env : DeployEnv) :
    ∀ fuel i acc e, e ∈ (envLoop env fuel i acc).1 → isPrepareEvent e = false := by
  intro fuel
  induction fuel with
  | zero => intro i acc e he; simp [envLoop] at he
  | succ n ih =>
    intro i acc e he
    simp only [envLoop] at he
    by_cases hk : env.envKeyAnswers i = ""
    · simp only [if_pos hk] at he
      by_cases ha : acc.isEmpty <;> simp [ha] at he <;> subst he <;> rfl
    · simp only [if_neg hk] at he
      exact ih _ _ _ he

theorem deploy_countP_prepare (a : DeployArgs) (env : DeployEnv) (fS fE : Nat) :
    (deploy a env fS fE).1.countP isPrepareEvent
      = (deployPhase1 a env fS fE).1.countP isPrepareEvent := by
  rcases hP : deployPhase1 a env fS fE with ⟨t1, o⟩
  rcases o with o | nr
  · rw [deploy_early _ _ _ _ _ _ hP]
  · rw [deploy_go _ _ _ _ _ _ hP]
    rw [List.countP_append]
    have hz : (deployRest a env nr).1.countP isPrepareEvent = 0 :=
      List.countP_eq_zero.mpr (fun e he => by simp [deployRest_no_prepare a env nr e he])
    simp [hz]

theorem deployPhase1_countP_interactive (a : DeployArgs) (env : DeployEnv) (fS fE : Nat)
    (r0 : PrepareResp)
    (hfe : env.featureEnabled = true) (hia : a.interactive = true)
    (hrq : env.requirementsOk = true) (hin : env.initializedOk = true)
    (hp0 : env.prepare 0 = Except.ok r0) :
    (deployPhase1 a env fS fE).1.countP isPrepareEvent
      = 1 + (interactiveBranch a env fS r0).1.countP isPrepareEvent := by
  have h2 : ¬(a.interactive = false ∧ keyFalsy a.key = true) := by simp [hia]
  unfold deployPhase1
  rw [if_neg (by simp [hfe]), if_neg h2, if_neg (by simp [hrq]), if_neg (by simp [hin])]
  simp only [hp0, hia]
  rw [if_neg (by simp)]
  rcases hib2 : (interactiveBranch a env fS r0).2 with _ | ⟨kc, au, du, ow⟩ <;>
    simp only [hib2]
  · simp [List.countP_append, List.countP_cons, isPrepareEvent]
    omega
  · by_cases hemp : kc = "" ∨ au = "" ∨ du = ""
    · rw [if_pos hemp]
      simp [List.countP_append, List.countP_cons, isPrepareEvent]
      omega
    · rw [if_neg hemp]
      have hz : ∀ fuel i acc, ((envLoop env fuel i acc).1.countP isPrepareEvent) = 0 :=
        fun fuel i acc => List.countP_eq_zero.mpr
          (fun e he => by simp [envLoop_no_prepare env fuel i acc e he])
      rcases hel : (envLoop env fE 0 a.envs).2 with _ | envs2 <;> simp only [hel] <;>
        simp [List.countP_append, List.countP_cons, isPrepareEvent, hz] <;> omega

/-- C3: in interactive mode, when the first prepare-deploy reply is the
`Suggestion` variant, the operator accepts the suggested key unmodified,
and the server then confirms that key with a `Reply` variant, the whole
`deploy` execution makes exactly two prepare-deploy calls: the initial one
and the single confirmation call of the retry loop (after which the key is
confirmed and no further prepare-deploy call occurs anywhere in `deploy`). -/
theorem c3_suggestion_two_calls (a : DeployArgs) (env : DeployEnv) (fS fE : Nat)
    (r0 r1 : PrepareResp) (s rep : Reply)
    (hfe : env.featureEnabled = true) (hia : a.interactive = true)
    (hrq : env.requirementsOk = true) (hin : env.initializedOk = true)
    (hp0 : env.prepare 0 = Except.ok r0)
    (hr0r : r0.reply = none) (hr0e : r0.existing = []) (hr0s : r0.suggestion = some s)
    (hsk : s.key ≠ "") (hask : env.askKey 0 = s.key)
    (hp1 : env.prepare 1 = Except.ok r1) (hr1 : r1.reply = some rep)
    (hrk : rep.key = s.key) (hfS : 1 ≤ fS) :
    (deploy a env fS fE).1.countP isPrepareEvent = 2 := by
  obtain ⟨m, rfl⟩ : ∃ m, fS = m + 1 := ⟨fS - 1, by omega⟩
  have hsl : suggestionLoop a env (m + 1) 1 0 s.key s.api_url s.deploy_url
      = ([Event.prepareCall a.appName (some s.key) a.frontendHostname],
         some (rep.key, rep.api_url, rep.deploy_url)) := by
    simp [suggestionLoop, hask, hsk, hp1, hr1, hrk]
  have hib : interactiveBranch a env (m + 1) r0
      = ([Event.prepareCall a.appName (some s.key) a.frontendHostname],
         some (rep.key, rep.api_url, rep.deploy_url, false)) := by
    simp [interactiveBranch, hr0r, hr0e, hr0s, hsl]
  rw [deploy_countP_prepare,
    deployPhase1_countP_interactive a env (m + 1) fE r0 hfe hia hrq hin hp0, hib]
  simp [List.countP_cons, isPrepareEvent]

/-- The suggestion fixture: first response carries only a suggestion, the
second confirms the suggested key. -/
def suggReply : Reply := ⟨"sugg", "https://api", "https://deploy"⟩

def suggResp0 : PrepareResp := ⟨"pfx", none, [], some suggReply⟩

def suggReply2 : Reply := ⟨"sugg", "https://api2", "https://deploy2"⟩

def suggResp1 : PrepareResp := ⟨"pfx", some suggReply2, [], none⟩

def suggArgs : DeployArgs := { sampleArgs with key := none, interactive := true }

def suggEnv : DeployEnv :=
  { sampleEnv with
    prepare := fun n => if n = 0 then Except.ok suggResp0 else Except.ok suggResp1,
    askKey := fun _ => "sugg" }

theorem c3_suggestion_two_calls_witness :
    (deploy suggArgs suggEnv 1 1).1.countP isPrepareEvent = 2 :=
  c3_suggestion_two_calls suggArgs suggEnv 1 1 suggResp0 suggResp1 suggReply suggReply2
    rfl rfl rfl rfl rfl rfl rfl rfl (by decide) rfl rfl rfl rfl (by decide)

/-- C4: running `deploy` with `--no-interactive` and a missing (or empty)
deployment key fails immediately: the whole execution is a single error
message and `typer.Exit(1)`; in particular no prepare-deploy, upload, poll
or cleanup call appears in the trace. -/
theorem c4_noninteractive_requires_key (a : DeployArgs) (env : DeployEnv) (fS fE : Nat)
    (hfe : env.featureEnabled = true) (hia : a.interactive = false)
    (hk : keyFalsy a.key = true) :
    deploy a env fS fE = ([Event.errorMsg keyRequiredMsg], Outcome.exited 1) := by
  have hP : deployPhase1 a env fS fE
      = ([Event.errorMsg keyRequiredMsg], .early (.exited 1)) := by
    unfold deployPhase1
    rw [if_neg (by simp [hfe]), if_pos ⟨hia, hk⟩]
  rw [deploy_early _ _ _ _ _ _ hP]

def noKeyArgs : DeployArgs := { sampleArgs with key := none }

theorem c4_noninteractive_requires_key_witness :
    deploy noKeyArgs sampleEnv 1 1 = ([Event.errorMsg keyRequiredMsg], Outcome.exited 1) :=
  c4_noninteractive_requires_key noKeyArgs sampleEnv 1 1 rfl rfl rfl

/-- C9: in the `run` command, when nothing is listening on the requested
port, the resolved port is the requested port unchanged; the
change-or-terminate negotiation is only invoked for an occupied port. -/
theorem c9_free_port_unchanged (enabled : Bool) (isOnPort : String → Bool)
    (negotiate : String → String) (port : String) (h : isOnPort port = false) :
    resolveRunPort enabled isOnPort negotiate port = port := by
  unfold resolveRunPort
  simp [h]

theorem c9_free_port_unchanged_witness :
    resolveRunPort true (fun _ => false) (fun _ => "9999") "3000" = "3000" :=
  c9_free_port_unchanged true (fun _ => false) (fun _ => "9999") "3000" rfl

/-- C7: during login token validation, each transient validation failure
is retried after a 5-second sleep, up to the bounded attempt count; the
explicit invalid-token signal is immediately terminal: the persisted token
is deleted and the command exits with code 1 with no further validation
attempts — the whole trace is exactly `k` transient rounds (validate call
+ 5-second sleep) followed by one final validate call, the access-denied
error and the token deletion. -/
theorem c7_invalid_token_terminal (env : LoginEnv) (tc : String × String) (k : Nat)
    (hfe : env.featureEnabled = true)
    (hex : env.existingToken = some tc)
    (herr : ∀ j, j < k → env.validateRes j = VRes.err)
    (hinv : env.validateRes k = VRes.invalid)
    (hk : k < env.authBound) :
    login env
      = (retryTrace Event.validateCall 5 k
          ++ [Event.validateCall, Event.errorMsg accessDeniedMsg, Event.deleteToken],
         Outcome.exited 1) := by
  have hv : validateLoopFrom env.validateRes env.authBound 0
      = (retryTrace Event.validateCall 5 k
          ++ [Event.validateCall, Event.errorMsg accessDeniedMsg, Event.deleteToken],
         ValidateOutcome.denied) := by
    apply validateLoopFrom_denied env.validateRes k env.authBound 0
    · intro j hj; simpa using herr j hj
    · simpa using hinv
    · exact hk
  unfold login
  rw [if_neg (by simp [hfe])]
  rw [hex]
  simp only [loginValidate, hv]

/-- The validation oracle of the C7 witness: two transient failures, then
the invalid-token signal. -/
def loginEnvC7 : LoginEnv :=
  { featureEnabled := true, existingToken := some ("tok", "code"), browserOpens := true,
    fetchResult := fun _ => none,
    validateRes := fun i => if i < 2 then VRes.err else VRes.invalid, authBound := 5 }

theorem c7_invalid_token_terminal_witness :
    login loginEnvC7
      = (retryTrace Event.validateCall 5 2
          ++ [Event.validateCall, Event.errorMsg accessDeniedMsg, Event.deleteToken],
         Outcome.exited 1) :=
  c7_invalid_token_terminal loginEnvC7 ("tok", "code") 2 rfl rfl
    (fun j hj => by simp [loginEnvC7, hj]) rfl (by decide)

/-- C10: an accepted env entry is split at the first `'='` only — the name
is the (necessarily `'='`-free) text before the first `'='` and the value
is everything after it, possibly empty or itself containing `'='` — and
when the same name occurs in several entries, the processed dict (the one
handed to the upload call) maps that name to the value of the last such
entry. -/
theorem c10_env_split_and_last_wins :
    (∀ s : String, s.data.contains '=' = true →
        splitFirstEq s = [envName s, envValue s]
        ∧ envName s ++ "=" ++ envValue s = s
        ∧ (envName s).data.contains '=' = false)
    ∧ (∀ envs d, processEnvs envs [] = Except.ok d →
        ∀ k, dictFind d k = lastEnvValue k envs) := by
  constructor
  · exact splitFirstEq_spec
  · intro envs d h k
    have hpe := processEnvs_find k envs [] d h
    unfold lastEnvValue
    rcases hg : (envs.filterMap
        (fun s => if envName s = k then some (envValue s) else none)).getLast? with _ | g <;>
      rw [hg] at hpe
    · rw [hpe]; simp [dictFind]
    · exact hpe

theorem c10_env_split_and_last_wins_witness :
    (splitFirstEq "A=B=C" = [envName "A=B=C", envValue "A=B=C"]
      ∧ envName "A=B=C" ++ "=" ++ envValue "A=B=C" = "A=B=C"
      ∧ (envName "A=B=C").data.contains '=' = false)
    ∧ dictFind [("A", "3"), ("B", "2")] "A" = lastEnvValue "A" ["A=1", "B=2", "A=3"] :=
  ⟨c10_env_split_and_last_wins.1 "A=B=C" (by decide),
   c10_env_split_and_last_wins.2 ["A=1", "B=2", "A=3"] [("A", "3"), ("B", "2")] rfl "A"⟩

/-- C1: `deploy` never reaches the upload call with an empty deployment
key, an empty region list, an empty app name, an empty app prefix or an
empty api_url: every upload event in any execution carries non-empty
values for all five, and whenever any of them is empty after negotiation,
the execution ends right there with the required-parameters error and
`typer.Exit(1)`, with no upload call in the trace. -/
theorem c1_upload_requires_params (a : DeployArgs) (env : DeployEnv) (fS fE : Nat) :
    (∀ k an rs ap au pev,
        Event.uploadCall k an rs ap au pev ∈ (deploy a env fS fE).1 →
        k ≠ "" ∧ an ≠ "" ∧ rs ≠ [] ∧ ap ≠ "" ∧ au ≠ "")
    ∧ (∀ t1 nr, deployPhase1 a env fS fE = (t1, Phase1Out.go nr) →
        requiredMissing a nr = true →
        deploy a env fS fE = (t1 ++ [Event.errorMsg missingParamsMsg], Outcome.exited 1)) := by
  constructor
  · intro k an rs ap au pev h
    obtain ⟨t1, nr, hP, hmem⟩ := deploy_upload_reached a env fS fE k an rs ap au pev h
    obtain ⟨h1, h2, h3, h4, h5, hrm, -, -⟩ :=
      deployRest_upload_inv a env nr k an rs ap au pev hmem
    subst h1; subst h2; subst h3; subst h4; subst h5
    simp only [requiredMissing, decide_eq_false_iff_not] at hrm
    push_neg at hrm
    exact ⟨hrm.1, hrm.2.2.1, hrm.2.1, hrm.2.2.2.1, hrm.2.2.2.2⟩
  · intro t1 nr hP hrm
    rw [deploy_go a env fS fE t1 nr hP, deployRest_missing a env nr hrm]

def noRegionArgs : DeployArgs := { sampleArgs with regions := [] }

theorem c1_upload_requires_params_witness :
    ("mykey" ≠ "" ∧ "app" ≠ "" ∧ (["sjc"] : List String) ≠ [] ∧ "pfx" ≠ ""
      ∧ "https://api" ≠ "")
    ∧ deploy noRegionArgs sampleEnv 1 1
        = ([Event.prepareCall "app" (some "mykey") none]
            ++ [Event.errorMsg missingParamsMsg], Outcome.exited 1) :=
  ⟨(c1_upload_requires_params sampleArgs sampleEnv 1 1).1
      "mykey" "app" ["sjc"] "pfx" "https://api" none (by decide),
   (c1_upload_requires_params noRegionArgs sampleEnv 1 1).2
      [Event.prepareCall "app" (some "mykey") none]
      ⟨"mykey", [], "pfx", "https://api", "https://deploy", false, []⟩ rfl rfl⟩

/-- C2 fails as stated: the source checks env names with Python
`re.match(r"^[a-zA-Z_][a-zA-Z0-9_]*$", name)`, and Python `$` also matches
just before a single trailing newline.  The entry `"A\n=v"` has the name
`"A\n"`, which does not match the regular expression
`^[A-Za-z_][A-Za-z0-9_]*$` (read as the language it denotes), yet deploy
accepts it, performs the upload with that entry, and completes without
exit code 1. -/
theorem c2_env_regex_counterexample :
    envName "A\n=v" = "A\n"
    ∧ strictEnvNameMatch "A\n" = false
    ∧ Event.uploadCall "mykey" "app" ["sjc"] "pfx" "https://api" (some [("A\n", "v")])
        ∈ (deploy { sampleArgs with envs := ["A\n=v"] } sampleEnv 1 1).1
    ∧ (deploy { sampleArgs with envs := ["A\n=v"] } sampleEnv 1 1).2
        = Outcome.completed :=
  ⟨by decide, by decide, by decide, by decide⟩

/-- C2 (amended): entries lacking an `'='` or whose name fails the
source's Python `re.match` check (which accepts exactly the strings of the
regular expression, plus those same strings followed by one trailing
newline) cause a descriptive error and exit code 1 before the upload call,
which then never happens; and any upload that does happen receives exactly
the validated name-to-value dict of the envs present after negotiation. -/
theorem c2_invalid_env_rejected (a : DeployArgs) (env : DeployEnv) (fS fE : Nat)
    (t1 : List Event) (nr : NegotiationResult)
    (hP : deployPhase1 a env fS fE = (t1, Phase1Out.go nr)) :
    ((∃ s ∈ nr.envs, envEntryOk s = false) →
        (deploy a env fS fE).2 = Outcome.exited 1
        ∧ (∀ k an rs ap au pev,
            Event.uploadCall k an rs ap au pev ∉ (deploy a env fS fE).1)
        ∧ ∃ m, Event.errorMsg m ∈ (deploy a env fS fE).1)
    ∧ (∀ k an rs ap au pev,
        Event.uploadCall k an rs ap au pev ∈ (deploy a env fS fE).1 →
        processedEnvs nr.envs = Except.ok pev) := by
  have hnoup : ∀ (k an : String) (rs : List String) (ap au : String)
      (pev : Option (List (String × String))),
      Event.uploadCall k an rs ap au pev ∉ t1 := by
    intro k an rs ap au pev hmem
    exact absurd
      (negotiationEvent_not_upload (deployPhase1_events a env fS fE _ (by rw [hP]; exact hmem)))
      (by simp [isUploadEvent])
  constructor
  · rintro ⟨s, hs, hbad⟩
    rw [deploy_go a env fS fE t1 nr hP]
    by_cases hrm : requiredMissing a nr = true
    · rw [deployRest_missing a env nr hrm]
      refine ⟨rfl, ?_, ⟨missingParamsMsg, by simp⟩⟩
      intro k an rs ap au pev hmem
      rcases List.mem_append.mp hmem with hmem | hmem
      · exact hnoup k an rs ap au pev hmem
      · simp at hmem
    · have hrm2 : requiredMissing a nr = false := by
        revert hrm; cases requiredMissing a nr <;> simp
      obtain ⟨m, hm⟩ := processEnvs_error_of_bad s hbad nr.envs [] hs
      have hne : nr.envs ≠ [] := by rintro hnil; rw [hnil] at hs; simp at hs
      have hpe : processedEnvs nr.envs = Except.error m := by
        unfold processedEnvs
        rw [if_neg (by simp [List.isEmpty_iff, hne]), hm]
        rfl
      rw [deployRest_envError a env nr m hrm2 hpe]
      refine ⟨rfl, ?_, ⟨m, by simp⟩⟩
      intro k an rs ap au pev hmem
      rcases List.mem_append.mp hmem with hmem | hmem
      · exact hnoup k an rs ap au pev hmem
      · simp at hmem
  · intro k an rs ap au pev hmem
    rw [deploy_go a env fS fE t1 nr hP] at hmem
    rcases List.mem_append.mp hmem with hmem | hmem
    · exact absurd hmem (hnoup k an rs ap au pev)
    · exact (deployRest_upload_inv a env nr k an rs ap au pev hmem).2.2.2.2.2.2.1

def badEnvArgs : DeployArgs := { sampleArgs with envs := ["1BAD=x"] }

theorem c2_invalid_env_rejected_witness :
    ((deploy badEnvArgs sampleEnv 1 1).2 = Outcome.exited 1
      ∧ (∀ k an rs ap au pev,
          Event.uploadCall k an rs ap au pev ∉ (deploy badEnvArgs sampleEnv 1 1).1)
      ∧ ∃ m, Event.errorMsg m ∈ (deploy badEnvArgs sampleEnv 1 1).1)
    ∧ processedEnvs ([] : List String) = Except.ok none :=
  ⟨(c2_invalid_env_rejected badEnvArgs sampleEnv 1 1
      [Event.prepareCall "app" (some "mykey") none]
      ⟨"mykey", ["sjc"], "pfx", "https://api", "https://deploy", false, ["1BAD=x"]⟩ rfl).1
      ⟨"1BAD=x", by decide, by decide⟩,
   (c2_invalid_env_rejected sampleArgs sampleEnv 1 1
      [Event.prepareCall "app" (some "mykey") none]
      ⟨"mykey", ["sjc"], "pfx", "https://api", "https://deploy", false, []⟩ rfl).2
      "mykey" "app" ["sjc"] "pfx" "https://api" none (by decide)⟩

def cleanupFailEnv : DeployEnv := { sampleEnv with cleanupOk := false }

/-- C5 fails as stated: on the success path the final `hosting.clean_up()`
at line 673 is not wrapped in `contextlib.suppress`, so when the attempt
reaches upload, succeeds, and the cleanup call then raises, the exception
propagates uncaught out of the command instead of being swallowed. -/
theorem c5_cleanup_counterexample :
    Event.uploadCall "mykey" "app" ["sjc"] "pfx" "https://api" none
        ∈ (deploy sampleArgs cleanupFailEnv 1 1).1
    ∧ Event.cleanupCall ∈ (deploy sampleArgs cleanupFailEnv 1 1).1
    ∧ (deploy sampleArgs cleanupFailEnv 1 1).2 = Outcome.uncaught :=
  ⟨by decide, by decide, by decide⟩

/-- C5 (amended): every deploy attempt that reaches the upload step issues
a cleanup call before it ends, whether the upload succeeds or fails; on
the upload-failure path the cleanup call is wrapped in
`contextlib.suppress`, so the attempt exits with code 1 regardless of
whether cleanup itself fails; on the success path the cleanup call is
bare, so its failure propagates uncaught out of the command. -/
theorem c5_cleanup_best_effort (a : DeployArgs) (env : DeployEnv) (fS fE : Nat) :
    (∀ k an rs ap au pev,
        Event.uploadCall k an rs ap au pev ∈ (deploy a env fS fE).1 →
        Event.cleanupCall ∈ (deploy a env fS fE).1)
    ∧ (∀ k an rs ap au pev,
        Event.uploadCall k an rs ap au pev ∈ (deploy a env fS fE).1 →
        env.uploadResult = Except.error () →
        (deploy a env fS fE).2 = Outcome.exited 1)
    ∧ (∀ k an rs ap au pev dr,
        Event.uploadCall k an rs ap au pev ∈ (deploy a env fS fE).1 →
        env.uploadResult = Except.ok dr →
        env.cleanupOk = false →
        (deploy a env fS fE).2 = Outcome.uncaught) := by
  refine ⟨?_, ?_, ?_⟩
  · intro k an rs ap au pev h
    obtain ⟨t1, nr, hP, hmem⟩ := deploy_upload_reached a env fS fE k an rs ap au pev h
    obtain ⟨-, -, -, -, -, hrm, hpe, hex⟩ :=
      deployRest_upload_inv a env nr k an rs ap au pev hmem
    rw [deploy_go a env fS fE t1 nr hP]
    refine List.mem_append.mpr (Or.inr ?_)
    rcases hu : env.uploadResult with u | dr
    · cases u
      rw [deployRest_uploadErr a env nr pev hrm hpe hex hu]
      simp
    · rw [deployRest_reach a env nr pev dr hrm hpe hex hu]
      exact List.mem_cons.mpr (Or.inr (List.mem_cons.mpr (Or.inr (afterUploadOk_cleanup env nr dr))))
  · intro k an rs ap au pev h hu
    obtain ⟨t1, nr, hP, hmem⟩ := deploy_upload_reached a env fS fE k an rs ap au pev h
    obtain ⟨-, -, -, -, -, hrm, hpe, hex⟩ :=
      deployRest_upload_inv a env nr k an rs ap au pev hmem
    rw [deploy_go a env fS fE t1 nr hP, deployRest_uploadErr a env nr pev hrm hpe hex hu]
  · intro k an rs ap au pev dr h hu hc
    obtain ⟨t1, nr, hP, hmem⟩ := deploy_upload_reached a env fS fE k an rs ap au pev h
    obtain ⟨-, -, -, -, -, hrm, hpe, hex⟩ :=
      deployRest_upload_inv a env nr k an rs ap au pev hmem
    rw [deploy_go a env fS fE t1 nr hP, deployRest_reach a env nr pev dr hrm hpe hex hu]
    exact afterUploadOk_uncaught env nr dr hc

def uploadErrEnv : DeployEnv := { sampleEnv with uploadResult := Except.error () }

theorem c5_cleanup_best_effort_witness :
    Event.cleanupCall ∈ (deploy sampleArgs sampleEnv 1 1).1
    ∧ (deploy sampleArgs uploadErrEnv 1 1).2 = Outcome.exited 1
    ∧ (deploy sampleArgs cleanupFailEnv 1 1).2 = Outcome.uncaught :=
  ⟨(c5_cleanup_best_effort sampleArgs sampleEnv 1 1).1
      "mykey" "app" ["sjc"] "pfx" "https://api" none (by decide),
   (c5_cleanup_best_effort sampleArgs uploadErrEnv 1 1).2.1
      "mykey" "app" ["sjc"] "pfx" "https://api" none (by decide) rfl,
   (c5_cleanup_best_effort sampleArgs cleanupFailEnv 1 1).2.2
      "mykey" "app" ["sjc"] "pfx" "https://api" none ⟨"http://b", "http://f"⟩
      (by decide) rfl rfl⟩

/-- C6: after a successful (non-overwrite) upload, the backend poll loop
runs to completion before the frontend poll loop starts, each loop polls
once per second (a one-second sleep after every failed poll) and stops on
the first success; with the backend succeeding on attempt 3 and the
frontend on attempt 1, the poll-and-sleep part of the whole trace is
exactly three backend polls (with sleeps between consecutive attempts)
followed by one frontend poll — 3 + 1 poll iterations — and overall
success is reported. -/
theorem c6_poll_sequence (a : DeployArgs) (env : DeployEnv) (fS fE : Nat)
    (t1 : List Event) (nr : NegotiationResult) (dr : DeployResponse)
    (pev : Option (List (String × String)))
    (hP : deployPhase1 a env fS fE = (t1, Phase1Out.go nr))
    (hrm : requiredMissing a nr = false)
    (hpe : processedEnvs nr.envs = Except.ok pev)
    (hex : env.exportOk = true)
    (hu : env.uploadResult = Except.ok dr)
    (hov : nr.overwrite = false)
    (hc : env.cleanupOk = true)
    (hb0 : env.backendUp 0 = false) (hb1 : env.backendUp 1 = false)
    (hb2 : env.backendUp 2 = true) (hbn : 3 ≤ env.backendBudget)
    (hf0 : env.frontendUp 0 = true) (hfn : 1 ≤ env.frontendBudget) :
    (deploy a env fS fE).2 = Outcome.completed
    ∧ (deploy a env fS fE).1.filter isPollOrSleepEvent
        = [Event.pollBackend dr.backend_url, Event.sleep 1,
           Event.pollBackend dr.backend_url, Event.sleep 1,
           Event.pollBackend dr.backend_url, Event.pollFrontend dr.frontend_url]
    ∧ Event.printSiteUp nr.key nr.regions dr.frontend_url ∈ (deploy a env fS fE).1 := by
  have hpb : pollLoop (Event.pollBackend dr.backend_url) env.backendUp env.backendBudget
      = ([Event.pollBackend dr.backend_url, Event.sleep 1,
          Event.pollBackend dr.backend_url, Event.sleep 1,
          Event.pollBackend dr.backend_url], true) := by
    have h0 : ∀ j, j < 2 → env.backendUp (0 + j) = false := by
      intro j hj
      have hj2 : j = 0 ∨ j = 1 := by omega
      rcases hj2 with rfl | rfl
      · simpa using hb0
      · simpa using hb1
    have h2 : env.backendUp (0 + 2) = true := by simpa using hb2
    have hfd := pollLoopFrom_found (Event.pollBackend dr.backend_url) env.backendUp 2
      env.backendBudget 0 h0 h2 (by omega)
    simpa [pollLoop, retryTrace] using hfd
  have hpf : pollLoop (Event.pollFrontend dr.frontend_url) env.frontendUp env.frontendBudget
      = ([Event.pollFrontend dr.frontend_url], true) := by
    have h2 : env.frontendUp (0 + 0) = true := by simpa using hf0
    have hfd := pollLoopFrom_found (Event.pollFrontend dr.frontend_url) env.frontendUp 0
      env.frontendBudget 0 (fun j hj => absurd hj (by omega)) h2 (by omega)
    simpa [pollLoop, retryTrace] using hfd
  have htr : afterUploadTrace env nr dr
      = [Event.printMsg startShortlyMsg, Event.printMsg newComeUpMsg,
         Event.pollBackend dr.backend_url, Event.sleep 1,
         Event.pollBackend dr.backend_url, Event.sleep 1,
         Event.pollBackend dr.backend_url, Event.printMsg backendUpMsg,
         Event.pollFrontend dr.frontend_url, Event.printMsg frontendUpMsg,
         Event.cleanupCall] := by
    unfold afterUploadTrace
    rw [hpb, hpf, hov]
    simp
  have haft : afterUploadOk env nr dr
      = (afterUploadTrace env nr dr
          ++ [Event.printSiteUp nr.key nr.regions dr.frontend_url], Outcome.completed) := by
    unfold afterUploadOk
    rw [if_neg (by simp [hc]), if_pos (by rw [hpb, hpf]; rfl)]
  have hdep : deploy a env fS fE
      = (t1 ++ (Event.printMsg uploadingMsg
          :: Event.uploadCall nr.key a.appName nr.regions nr.appPfx nr.apiUrl pev
          :: (afterUploadTrace env nr dr
              ++ [Event.printSiteUp nr.key nr.regions dr.frontend_url])),
         Outcome.completed) := by
    rw [deploy_go a env fS fE t1 nr hP, deployRest_reach a env nr pev dr hrm hpe hex hu, haft]
  have ht1 : t1.filter isPollOrSleepEvent = [] :=
    List.filter_eq_nil_iff.mpr (fun e he => by
      simp [negotiationEvent_not_pollsleep
        (deployPhase1_events a env fS fE e (by rw [hP]; exact he))])
  refine ⟨by rw [hdep], ?_, ?_⟩
  · rw [hdep]
    simp only [List.filter_append, ht1, htr, List.nil_append]
    simp [isPollOrSleepEvent, List.filter]
  · rw [hdep]
    simp

def pollEnvC6 : DeployEnv :=
  { sampleEnv with backendUp := fun i => decide (2 ≤ i), backendBudget := 9 }

theorem c6_poll_sequence_witness :
    (deploy sampleArgs pollEnvC6 1 1).2 = Outcome.completed
    ∧ (deploy sampleArgs pollEnvC6 1 1).1.filter isPollOrSleepEvent
        = [Event.pollBackend "http://b", Event.sleep 1,
           Event.pollBackend "http://b", Event.sleep 1,
           Event.pollBackend "http://b", Event.pollFrontend "http://f"]
    ∧ Event.printSiteUp "mykey" ["sjc"] "http://f" ∈ (deploy sampleArgs pollEnvC6 1 1).1 :=
  c6_poll_sequence sampleArgs pollEnvC6 1 1
    [Event.prepareCall "app" (some "mykey") none]
    ⟨"mykey", ["sjc"], "pfx", "https://api", "https://deploy", false, []⟩
    ⟨"http://b", "http://f"⟩ none
    rfl rfl rfl rfl rfl rfl rfl rfl rfl rfl (by decide) rfl (by decide)

/-- C8: when exactly one of backend and frontend comes up within its poll
budget, `deploy` does not treat the outcome as an error: it prints the
check-back-later guidance and returns normally (no exit code 1 and no
exception), provided the final cleanup call itself succeeds. -/
theorem c8_degraded_completes (a : DeployArgs) (env : DeployEnv) (fS fE : Nat)
    (t1 : List Event) (nr : NegotiationResult) (dr : DeployResponse)
    (pev : Option (List (String × String)))
    (hP : deployPhase1 a env fS fE = (t1, Phase1Out.go nr))
    (hrm : requiredMissing a nr = false)
    (hpe : processedEnvs nr.envs = Except.ok pev)
    (hex : env.exportOk = true)
    (hu : env.uploadResult = Except.ok dr)
    (hc : env.cleanupOk = true)
    (hne : (pollLoop (Event.pollBackend dr.backend_url) env.backendUp env.backendBudget).2
        ≠ (pollLoop (Event.pollFrontend dr.frontend_url) env.frontendUp env.frontendBudget).2) :
    (deploy a env fS fE).2 = Outcome.completed
    ∧ Event.warnMsg slowWarnMsg ∈ (deploy a env fS fE).1 := by
  obtain ⟨ho, hw⟩ := afterUploadOk_warn env nr dr hc hne
  rw [deploy_go a env fS fE t1 nr hP, deployRest_reach a env nr pev dr hrm hpe hex hu]
  refine ⟨ho, ?_⟩
  refine List.mem_append.mpr (Or.inr ?_)
  exact List.mem_cons.mpr (Or.inr (List.mem_cons.mpr (Or.inr hw)))

def frontendDownEnv : DeployEnv :=
  { sampleEnv with frontendUp := fun _ => false, frontendBudget := 2 }

theorem c8_degraded_completes_witness :
    (deploy sampleArgs frontendDownEnv 1 1).2 = Outcome.completed
    ∧ Event.warnMsg slowWarnMsg ∈ (deploy sampleArgs frontendDownEnv 1 1).1 :=
  c8_degraded_completes sampleArgs frontendDownEnv 1 1
    [Event.prepareCall "app" (some "mykey") none]
    ⟨"mykey", ["sjc"], "pfx", "https://api", "https://deploy", false, []⟩
    ⟨"http://b", "http://f"⟩ none
    rfl rfl rfl rfl rfl rfl (by decide)

end Reflex
